import Mathlib

/-!
Verification of `src/background_fix.py` (module `background_fix`).

The module implements a per-user preference store, `BackgroundManager`,
mapping user ids to a mode string (`"real-time"` or `"background"`),
persisted in a JSON file.  We embed it shallowly:

* the in-memory table `self._prefs` (a Python `dict` of strings) becomes an
  association list `PrefMap` with first-match lookup and in-place update,
  matching `dict.get` / `dict.__setitem__` semantics;
* the filesystem becomes an explicit map from path to `FileContent`; a
  file's content is abstracted to what `json.load` would yield: a flat
  string-to-string mapping (`dict`), something parseable but not a mapping
  (`nonDict`), or unparseable content (`unparseable`).  `json.dump` of the
  table is modeled as writing `FileContent.dict` of the table;
* `mode.strip().lower()` becomes `String.trim` followed by `String.toLower`;
* the Python `ValueError` raised by `set_mode` becomes `Except.error`.

Write-time I/O failures (disk full, permissions) are outside the model:
the spec treats them as uncaught generic failures, so `FS.write` is total.
-/

namespace BackgroundFix

/-- What `json.load` on the backing file yields: a flat string mapping,
some other parseable document, or a parse failure. -/
inductive FileContent where
  | dict (entries : List (String × String))
  | nonDict
  | unparseable
deriving DecidableEq

/-- The in-memory preference table `self._prefs`: association list with
`dict` semantics (unique keys, first-match lookup). -/
abbrev PrefMap := List (String × String)

/-- `self._prefs.get(user_id, default)` without the default:
first entry whose key equals `u`. -/
def PrefMap.get : PrefMap → String → Option String
  | [], _ => none
  | (k, v) :: rest, u => if k = u then some v else PrefMap.get rest u

/-- `self._prefs[user_id] = mode`: replace the first binding of the key,
or append a fresh binding. -/
def PrefMap.insert : PrefMap → String → String → PrefMap
  | [], u, m => [(u, m)]
  | (k, v) :: rest, u, m =>
      if k = u then (k, m) :: rest else (k, v) :: PrefMap.insert rest u m

/-- The filesystem: a map from storage path to file content. -/
abbrev FS := List (String × FileContent)

/-- `os.path.exists` + `open(..., "r")` + `json.load`, combined:
content of the file at path `p`, if it exists. -/
def FS.read : FS → String → Option FileContent
  | [], _ => none
  | (q, c) :: rest, p => if q = p then some c else FS.read rest p

/-- `open(p, "w")` + a full-file write: replace (or create) the file at `p`. -/
def FS.write : FS → String → FileContent → FS
  | [], p, c => [(p, c)]
  | (q, d) :: rest, p, c =>
      if q = p then (q, c) :: rest else (q, d) :: FS.write rest p c

/-- Class attribute `BackgroundManager.DEFAULT_MODE = "background"`. -/
def DEFAULT_MODE : String := "background"

/-- The state of one `BackgroundManager` instance: its storage path and its
in-memory preference table. -/
structure BackgroundManager where
  storage_path : String
  _prefs : PrefMap
deriving DecidableEq

/-- Python `str.strip` whitespace (the ASCII whitespace characters). -/
def isPySpace (c : Char) : Bool :=
  c = ' ' || c = '\t' || c = '\n' || c = '\x0b' || c = '\x0c' || c = '\r'

/-- `str.strip()`: drop whitespace from both ends. -/
def trimChars (l : List Char) : List Char :=
  ((l.dropWhile isPySpace).reverse.dropWhile isPySpace).reverse

/-- `mode.strip().lower()` in `set_mode`, over the string's characters
(ASCII case folding, as for the mode alphabet in play). -/
def normalizeMode (mode : String) : String :=
  String.mk (List.map Char.toLower (trimChars mode.data))

/-- `BackgroundManager._persist`: rewrite the whole backing file from the
in-memory table (`json.dump(self._prefs, f, indent=2)`). -/
def BackgroundManager._persist (bm : BackgroundManager) (fs : FS) : FS :=
  FS.write fs bm.storage_path (FileContent.dict bm._prefs)

/-- `BackgroundManager.__init__` followed by `_load`: if the file exists and
parses to a mapping, that mapping becomes the table; if it exists but is not
a mapping or is unparseable, the table is empty and the disk untouched
(the `try`/`except Exception` swallows the parse error); if it is absent,
the table is empty and `_persist` creates the file. -/
def BackgroundManager.init (storage_path : String) (fs : FS) :
    BackgroundManager × FS :=
  match FS.read fs storage_path with
  | some (FileContent.dict data) => (⟨storage_path, data⟩, fs)
  | some FileContent.nonDict => (⟨storage_path, []⟩, fs)
  | some FileContent.unparseable => (⟨storage_path, []⟩, fs)
  | none =>
      let bm : BackgroundManager := ⟨storage_path, []⟩
      (bm, bm._persist fs)

/-- `BackgroundManager.set_mode`: normalize, validate, store, persist.
An invalid normalized mode raises `ValueError` (here `Except.error`)
before any mutation. -/
def BackgroundManager.set_mode (bm : BackgroundManager) (fs : FS)
    (user_id mode : String) : Except String (BackgroundManager × FS) :=
  let mode := normalizeMode mode
  if mode = "real-time" ∨ mode = "background" then
    let bm' : BackgroundManager :=
      { bm with _prefs := PrefMap.insert bm._prefs user_id mode }
    Except.ok (bm', bm'._persist fs)
  else
    Except.error "Invalid mode. Use real-time or background."

/-- `BackgroundManager.get_mode`: stored mode, or `DEFAULT_MODE` if absent.
Pure: reads only the in-memory table. -/
def BackgroundManager.get_mode (bm : BackgroundManager) (user_id : String) :
    String :=
  match PrefMap.get bm._prefs user_id with
  | some v => v
  | none => DEFAULT_MODE

/-- `BackgroundManager.toggle`: read the current mode, compute the opposite,
store it via `set_mode`, return it. -/
def BackgroundManager.toggle (bm : BackgroundManager) (fs : FS)
    (user_id : String) : Except String (String × BackgroundManager × FS) :=
  let current := bm.get_mode user_id
  let new_mode := if current = "background" then "real-time" else "background"
  match bm.set_mode fs user_id new_mode with
  | Except.ok (bm', fs') => Except.ok (new_mode, bm', fs')
  | Except.error e => Except.error e

/-- One public-API call, for stating invariants over call sequences. -/
inductive Op where
  | getOp (u : String)
  | setOp (u m : String)
  | toggleOp (u : String)

/-- Execute one call on a (manager, filesystem) state.  A raising `set_mode`
leaves the state unchanged (the exception propagates before any mutation). -/
def run (s : BackgroundManager × FS) (op : Op) : BackgroundManager × FS :=
  match op with
  | Op.getOp _ => s
  | Op.setOp u m =>
      match s.1.set_mode s.2 u m with
      | Except.ok s' => s'
      | Except.error _ => s
  | Op.toggleOp u =>
      match s.1.toggle s.2 u with
      | Except.ok (_, bm', fs') => (bm', fs')
      | Except.error _ => s

/-- Execute a sequence of public-API calls. -/
def runSeq (s : BackgroundManager × FS) (ops : List Op) :
    BackgroundManager × FS :=
  ops.foldl run s

/-- Every value in the table is one of the two valid lowercase modes. -/
def ValidTable (m : PrefMap) : Prop :=
  ∀ p ∈ m, p.2 = "real-time" ∨ p.2 = "background"

instance (m : PrefMap) : Decidable (ValidTable m) := by
  unfold ValidTable; infer_instance

/-! ### Helper lemmas about the table, the filesystem and the operations -/

theorem PrefMap.get_insert_self (m : PrefMap) (k v : String) :
    PrefMap.get (PrefMap.insert m k v) k = some v := by
  induction m with
  | nil => simp [PrefMap.insert, PrefMap.get]
  | cons p rest ih =>
      obtain ⟨a, b⟩ := p
      by_cases h : a = k <;> simp [PrefMap.insert, PrefMap.get, h, ih]

theorem FS.read_write_self (fs : FS) (p : String) (c : FileContent) :
    FS.read (FS.write fs p c) p = some c := by
  induction fs with
  | nil => simp [FS.write, FS.read]
  | cons e rest ih =>
      obtain ⟨q, d⟩ := e
      by_cases h : q = p <;> simp [FS.write, FS.read, h, ih]

theorem FS.read_write_ne (fs : FS) (p q : String) (c : FileContent)
    (h : q ≠ p) : FS.read (FS.write fs p c) q = FS.read fs q := by
  have hpq : p ≠ q := fun hh => h hh.symm
  induction fs with
  | nil => simp [FS.write, FS.read, hpq]
  | cons e rest ih =>
      obtain ⟨r, d⟩ := e
      by_cases hr : r = p
      · subst hr
        simp [FS.write, FS.read, hpq]
      · by_cases hq : r = q
        · subst hq
          simp [FS.write, FS.read, hr]
        · simp [FS.write, FS.read, hr, hq, ih]

theorem normalize_rt : normalizeMode "real-time" = "real-time" := by decide

theorem normalize_bg : normalizeMode "background" = "background" := by decide

theorem set_mode_valid (bm : BackgroundManager) (fs : FS) (u m : String)
    (h : normalizeMode m = "real-time" ∨ normalizeMode m = "background") :
    bm.set_mode fs u m =
      Except.ok
        (⟨bm.storage_path, PrefMap.insert bm._prefs u (normalizeMode m)⟩,
          FS.write fs bm.storage_path
            (FileContent.dict (PrefMap.insert bm._prefs u (normalizeMode m)))) := by
  simp only [BackgroundManager.set_mode, BackgroundManager._persist, if_pos h]

theorem set_mode_invalid_eq (bm : BackgroundManager) (fs : FS) (u m : String)
    (h : ¬(normalizeMode m = "real-time" ∨ normalizeMode m = "background")) :
    bm.set_mode fs u m =
      Except.error "Invalid mode. Use real-time or background." := by
  simp only [BackgroundManager.set_mode, if_neg h]

theorem set_mode_ok_cases (bm : BackgroundManager) (fs : FS) (u m : String)
    (bm' : BackgroundManager) (fs' : FS)
    (h : bm.set_mode fs u m = Except.ok (bm', fs')) :
    (normalizeMode m = "real-time" ∨ normalizeMode m = "background") ∧
    bm' = ⟨bm.storage_path, PrefMap.insert bm._prefs u (normalizeMode m)⟩ ∧
    fs' = FS.write fs bm.storage_path
      (FileContent.dict (PrefMap.insert bm._prefs u (normalizeMode m))) := by
  by_cases hv : normalizeMode m = "real-time" ∨ normalizeMode m = "background"
  · rw [set_mode_valid bm fs u m hv] at h
    refine ⟨hv, ?_, ?_⟩
    · exact (Prod.mk.injEq _ _ _ _ ▸ (Except.ok.injEq _ _ ▸ h)).1.symm
    · exact (Prod.mk.injEq _ _ _ _ ▸ (Except.ok.injEq _ _ ▸ h)).2.symm
  · rw [set_mode_invalid_eq bm fs u m hv] at h
    exact absurd h (by simp)

theorem toggle_eq (bm : BackgroundManager) (fs : FS) (u : String) :
    bm.toggle fs u =
      Except.ok
        (if bm.get_mode u = "background" then "real-time" else "background",
          ⟨bm.storage_path,
            PrefMap.insert bm._prefs u
              (if bm.get_mode u = "background" then "real-time" else "background")⟩,
          FS.write fs bm.storage_path
            (FileContent.dict
              (PrefMap.insert bm._prefs u
                (if bm.get_mode u = "background" then "real-time"
                  else "background")))) := by
  by_cases h : bm.get_mode u = "background"
  · simp only [BackgroundManager.toggle, h, if_pos rfl,
      set_mode_valid bm fs u "real-time" (Or.inl normalize_rt), normalize_rt, if_true]
  · simp only [BackgroundManager.toggle, if_neg h,
      set_mode_valid bm fs u "background" (Or.inr normalize_bg), normalize_bg]

theorem get_mode_insert_self (bm : BackgroundManager) (u v : String) :
    BackgroundManager.get_mode ⟨bm.storage_path, PrefMap.insert bm._prefs u v⟩ u = v := by
  simp [BackgroundManager.get_mode, PrefMap.get_insert_self]

theorem ValidTable.insert (m : PrefMap) (u v : String) (h : ValidTable m)
    (hv : v = "real-time" ∨ v = "background") :
    ValidTable (PrefMap.insert m u v) := by
  induction m with
  | nil =>
      intro p hp
      simp [PrefMap.insert] at hp
      simp [hp, hv]
  | cons q rest ih =>
      obtain ⟨a, b⟩ := q
      have hrest : ValidTable rest := fun p hp => h p (List.mem_cons_of_mem _ hp)
      by_cases ha : a = u
      · intro p hp
        simp [PrefMap.insert, ha] at hp
        rcases hp with hp | hp
        · simp [hp, hv]
        · exact hrest p hp
      · intro p hp
        simp [PrefMap.insert, ha] at hp
        rcases hp with hp | hp
        · exact h p (by simp [hp])
        · exact ih hrest p hp

theorem run_preserves_valid (s : BackgroundManager × FS) (op : Op)
    (h : ValidTable s.1._prefs) : ValidTable ((run s op).1)._prefs := by
  obtain ⟨bm, fs⟩ := s
  cases op with
  | getOp u => exact h
  | setOp u m =>
      by_cases hv : normalizeMode m = "real-time" ∨ normalizeMode m = "background"
      · simp only [run, set_mode_valid bm fs u m hv]
        exact ValidTable.insert _ _ _ h hv
      · simp only [run, set_mode_invalid_eq bm fs u m hv]
        exact h
  | toggleOp u =>
      simp only [run, toggle_eq bm fs u]
      apply ValidTable.insert _ _ _ h
      by_cases hb : bm.get_mode u = "background" <;> simp [hb]

theorem runSeq_preserves_valid (ops : List Op) :
    ∀ s : BackgroundManager × FS,
      ValidTable s.1._prefs → ValidTable ((runSeq s ops).1)._prefs := by
  induction ops with
  | nil => intro s h; exact h
  | cons op rest ih =>
      intro s h
      exact ih (run s op) (run_preserves_valid s op h)

theorem init_storage_path (p : String) (fs : FS) :
    ((BackgroundManager.init p fs).1).storage_path = p := by
  unfold BackgroundManager.init
  split <;> rfl

/-! ### Claims -/

/-- C1: for every user id `u` and every mode string `m` whose trimmed,
lowercased form is `"real-time"` or `"background"`, `set_mode u m`
succeeds and a subsequent `get_mode u` returns the normalized value of
`m`. -/
theorem set_mode_get_mode_roundtrip (bm : BackgroundManager) (fs : FS)
    (u m : String)
    (h : normalizeMode m = "real-time" ∨ normalizeMode m = "background") :
    ∃ bm' fs', bm.set_mode fs u m = Except.ok (bm', fs') ∧
      bm'.get_mode u = normalizeMode m := by
  exact ⟨_, _, set_mode_valid bm fs u m h, get_mode_insert_self bm u (normalizeMode m)⟩

/-- Witness for C1 at `u = "42"`, `m = " REAL-TIME "`. -/
theorem set_mode_get_mode_roundtrip_witness :
    (normalizeMode " REAL-TIME " = "real-time" ∨
      normalizeMode " REAL-TIME " = "background") ∧
    ∃ bm' fs',
      BackgroundManager.set_mode ⟨"user_prefs.json", []⟩ [] "42" " REAL-TIME " =
        Except.ok (bm', fs') ∧
      bm'.get_mode "42" = normalizeMode " REAL-TIME " :=
  ⟨Or.inl (by decide),
    set_mode_get_mode_roundtrip ⟨"user_prefs.json", []⟩ [] "42" " REAL-TIME "
      (Or.inl (by decide))⟩

/-- C2: `set_mode` raises exactly when the normalized mode is invalid, and
an invalid call leaves the store state (table and filesystem) unchanged. -/
theorem set_mode_invalid_error (bm : BackgroundManager) (fs : FS)
    (u m : String) :
    ((∃ e, bm.set_mode fs u m = Except.error e) ↔
      ¬(normalizeMode m = "real-time" ∨ normalizeMode m = "background")) ∧
    (¬(normalizeMode m = "real-time" ∨ normalizeMode m = "background") →
      run (bm, fs) (Op.setOp u m) = (bm, fs)) := by
  constructor
  · constructor
    · rintro ⟨e, he⟩ hv
      rw [set_mode_valid bm fs u m hv] at he
      exact absurd he (by simp)
    · intro hv
      exact ⟨_, set_mode_invalid_eq bm fs u m hv⟩
  · intro hv
    simp only [run, set_mode_invalid_eq bm fs u m hv]

/-- Witness for C2 at `u = "42"`, `m = "invalid"`. -/
theorem set_mode_invalid_error_witness :
    (∃ e, BackgroundManager.set_mode ⟨"user_prefs.json", []⟩ [] "42" "invalid" =
      Except.error e) ∧
    run ((⟨"user_prefs.json", []⟩ : BackgroundManager), ([] : FS))
        (Op.setOp "42" "invalid") =
      ((⟨"user_prefs.json", []⟩ : BackgroundManager), ([] : FS)) :=
  ⟨(set_mode_invalid_error ⟨"user_prefs.json", []⟩ [] "42" "invalid").1.mpr
      (by decide),
    (set_mode_invalid_error ⟨"user_prefs.json", []⟩ [] "42" "invalid").2
      (by decide)⟩

/-- C3: for a user id absent from the table, `get_mode` returns the
default mode `"background"`. -/
theorem get_mode_default (bm : BackgroundManager) (u : String)
    (h : PrefMap.get bm._prefs u = none) : bm.get_mode u = "background" := by
  simp [BackgroundManager.get_mode, h, DEFAULT_MODE]

/-- Witness for C3: a freshly constructed store over an empty filesystem. -/
theorem get_mode_default_witness :
    PrefMap.get (BackgroundManager.mk "user_prefs.json" [])._prefs "7" = none ∧
    BackgroundManager.get_mode ⟨"user_prefs.json", []⟩ "7" = "background" :=
  ⟨rfl, get_mode_default ⟨"user_prefs.json", []⟩ "7" rfl⟩

/-- C4: when the current mode is one of the two valid modes, two successive
`toggle` calls return the mode to its original value: the second call
returns what `get_mode` reported before the first. -/
theorem toggle_involution (bm : BackgroundManager) (fs : FS) (u : String)
    (h : bm.get_mode u = "real-time" ∨ bm.get_mode u = "background") :
    ∃ r₁ bm₁ fs₁ r₂ bm₂ fs₂,
      bm.toggle fs u = Except.ok (r₁, bm₁, fs₁) ∧
      bm₁.toggle fs₁ u = Except.ok (r₂, bm₂, fs₂) ∧
      r₂ = bm.get_mode u := by
  refine ⟨_, _, _, _, _, _, toggle_eq bm fs u, toggle_eq _ _ u, ?_⟩
  rcases h with h | h <;>
    simp [h, get_mode_insert_self]

/-- Witness for C4: a fresh store (current mode `"background"`),
toggled twice. -/
theorem toggle_involution_witness :
    (BackgroundManager.get_mode ⟨"user_prefs.json", []⟩ "42" = "real-time" ∨
      BackgroundManager.get_mode ⟨"user_prefs.json", []⟩ "42" = "background") ∧
    ∃ r₁ bm₁ fs₁ r₂ bm₂ fs₂,
      BackgroundManager.toggle ⟨"user_prefs.json", []⟩ [] "42" =
        Except.ok (r₁, bm₁, fs₁) ∧
      bm₁.toggle fs₁ "42" = Except.ok (r₂, bm₂, fs₂) ∧
      r₂ = BackgroundManager.get_mode ⟨"user_prefs.json", []⟩ "42" :=
  ⟨Or.inr rfl,
    toggle_involution ⟨"user_prefs.json", []⟩ [] "42" (Or.inr rfl)⟩

/-- C5: persistence round-trip: after `set_mode u "real-time"` succeeds,
a new store constructed over the resulting filesystem at the same path
reports `"real-time"` for `u`. -/
theorem persistence_roundtrip (bm : BackgroundManager) (fs : FS) (u : String) :
    ∃ bm' fs', bm.set_mode fs u "real-time" = Except.ok (bm', fs') ∧
      ((BackgroundManager.init bm.storage_path fs').1).get_mode u =
        "real-time" := by
  refine ⟨_, _, set_mode_valid bm fs u "real-time" (Or.inl normalize_rt), ?_⟩
  simp only [BackgroundManager.init, FS.read_write_self, normalize_rt]
  simp [BackgroundManager.get_mode, PrefMap.get_insert_self]

/-- Witness for C5 at `u = "42"` over an empty filesystem. -/
theorem persistence_roundtrip_witness :
    ∃ bm' fs',
      BackgroundManager.set_mode ⟨"user_prefs.json", []⟩ [] "42" "real-time" =
        Except.ok (bm', fs') ∧
      ((BackgroundManager.init "user_prefs.json" fs').1).get_mode "42" =
        "real-time" :=
  persistence_roundtrip ⟨"user_prefs.json", []⟩ [] "42"

/-- C6: construction is resilient: a missing file yields an empty table and
an immediately created empty document; a non-mapping or unparseable file
yields an empty table with the disk untouched.  (Construction is total by
the type of `BackgroundManager.init`.) -/
theorem init_resilience (p : String) (fs : FS) :
    (FS.read fs p = none →
      BackgroundManager.init p fs =
        (⟨p, []⟩, FS.write fs p (FileContent.dict []))) ∧
    (FS.read fs p = some FileContent.nonDict →
      BackgroundManager.init p fs = (⟨p, []⟩, fs)) ∧
    (FS.read fs p = some FileContent.unparseable →
      BackgroundManager.init p fs = (⟨p, []⟩, fs)) := by
  refine ⟨fun h => ?_, fun h => ?_, fun h => ?_⟩ <;>
    simp [BackgroundManager.init, h, BackgroundManager._persist]

/-- Witness for C6: all three cases at concrete filesystems. -/
theorem init_resilience_witness :
    BackgroundManager.init "user_prefs.json" [] =
      (⟨"user_prefs.json", []⟩, [("user_prefs.json", FileContent.dict [])]) ∧
    BackgroundManager.init "user_prefs.json"
        [("user_prefs.json", FileContent.nonDict)] =
      (⟨"user_prefs.json", []⟩, [("user_prefs.json", FileContent.nonDict)]) ∧
    BackgroundManager.init "user_prefs.json"
        [("user_prefs.json", FileContent.unparseable)] =
      (⟨"user_prefs.json", []⟩,
        [("user_prefs.json", FileContent.unparseable)]) :=
  ⟨(init_resilience "user_prefs.json" []).1 rfl,
    (init_resilience "user_prefs.json" _).2.1 rfl,
    (init_resilience "user_prefs.json" _).2.2 rfl⟩

/-- C7: starting from a table whose values are all valid modes, every
sequence of public-API calls (`get_mode`/`set_mode`/`toggle`) preserves
validity of all table values. -/
theorem public_api_preserves_valid (bm : BackgroundManager) (fs : FS)
    (ops : List Op) (h : ValidTable bm._prefs) :
    ValidTable ((runSeq (bm, fs) ops).1)._prefs :=
  runSeq_preserves_valid ops (bm, fs) h

/-- Witness for C7: a concrete call sequence from an empty table. -/
theorem public_api_preserves_valid_witness :
    ValidTable ((⟨"user_prefs.json", []⟩ : BackgroundManager))._prefs ∧
    ValidTable
      ((runSeq ((⟨"user_prefs.json", []⟩ : BackgroundManager), ([] : FS))
        [Op.setOp "1" " Real-Time ", Op.toggleOp "1", Op.getOp "1",
          Op.setOp "2" "bogus"]).1)._prefs :=
  ⟨by decide,
    public_api_preserves_valid ⟨"user_prefs.json", []⟩ []
      [Op.setOp "1" " Real-Time ", Op.toggleOp "1", Op.getOp "1",
        Op.setOp "2" "bogus"] (by decide)⟩

/-- C8 counterexample: the default mode is not selectable by construction:
no choice of constructor arguments (storage path) or initial filesystem
produces two instances that disagree on the mode reported for a user
absent from both tables — every instance defaults to the fixed class
constant. -/
theorem default_mode_not_constructor_selectable :
    ¬ ∃ (p₁ p₂ : String) (fs₁ fs₂ : FS) (u : String),
        PrefMap.get ((BackgroundManager.init p₁ fs₁).1)._prefs u = none ∧
        PrefMap.get ((BackgroundManager.init p₂ fs₂).1)._prefs u = none ∧
        ((BackgroundManager.init p₁ fs₁).1).get_mode u ≠
          ((BackgroundManager.init p₂ fs₂).1).get_mode u := by
  rintro ⟨p₁, p₂, fs₁, fs₂, u, h₁, h₂, hne⟩
  exact hne (by simp [BackgroundManager.get_mode, h₁, h₂])

/-- C8 amended: the backing-file path is constructor-time configuration and
each instance owns its own state: a fresh instance records the path it was
given, defaults absent users to the process-wide constant `DEFAULT_MODE`
(which no constructor argument can change), and a successful `set_mode`
through an instance at path `p₁` leaves the file at any other path `p₂`
untouched. -/
theorem constructor_configuration (p₁ p₂ : String) (fs : FS) (u m : String)
    (hne : p₂ ≠ p₁) :
    ((BackgroundManager.init p₁ fs).1).storage_path = p₁ ∧
    (PrefMap.get ((BackgroundManager.init p₁ fs).1)._prefs u = none →
      ((BackgroundManager.init p₁ fs).1).get_mode u = DEFAULT_MODE) ∧
    (∀ bm' fs',
      ((BackgroundManager.init p₁ fs).1).set_mode
          (BackgroundManager.init p₁ fs).2 u m = Except.ok (bm', fs') →
      FS.read fs' p₂ = FS.read (BackgroundManager.init p₁ fs).2 p₂) := by
  refine ⟨init_storage_path p₁ fs, fun h => ?_, fun bm' fs' h => ?_⟩
  · simp [BackgroundManager.get_mode, h]
  · obtain ⟨-, -, hfs⟩ := set_mode_ok_cases _ _ _ _ _ _ h
    rw [hfs, init_storage_path p₁ fs]
    exact FS.read_write_ne _ _ _ _ hne

/-- Witness for C8 (amended) at two distinct concrete paths. -/
theorem constructor_configuration_witness :
    ((BackgroundManager.init "a.json" []).1).storage_path = "a.json" ∧
    (PrefMap.get ((BackgroundManager.init "a.json" []).1)._prefs "42" = none →
      ((BackgroundManager.init "a.json" []).1).get_mode "42" = DEFAULT_MODE) ∧
    (∀ bm' fs',
      ((BackgroundManager.init "a.json" []).1).set_mode
          (BackgroundManager.init "a.json" []).2 "42" "real-time" =
        Except.ok (bm', fs') →
      FS.read fs' "b.json" =
        FS.read (BackgroundManager.init "a.json" []).2 "b.json") :=
  constructor_configuration "a.json" "b.json" [] "42" "real-time" (by decide)

/-- C9: `get_mode` never fails and never mutates: running it as a
public-API call leaves the manager and filesystem exactly as before, and
on any table (corrupted values included) it returns either the stored
value or the default. -/
theorem get_mode_total_pure (bm : BackgroundManager) (fs : FS) (u : String) :
    run (bm, fs) (Op.getOp u) = (bm, fs) ∧
    (PrefMap.get bm._prefs u = some (bm.get_mode u) ∨
      bm.get_mode u = DEFAULT_MODE) := by
  refine ⟨rfl, ?_⟩
  cases h : PrefMap.get bm._prefs u <;>
    simp [BackgroundManager.get_mode, h]

/-- Witness for C9 on a store holding a corrupted value loaded from disk. -/
theorem get_mode_total_pure_witness :
    run ((⟨"user_prefs.json", [("42", "corrupted")]⟩ : BackgroundManager),
        ([] : FS)) (Op.getOp "42") =
      ((⟨"user_prefs.json", [("42", "corrupted")]⟩ : BackgroundManager),
        ([] : FS)) ∧
    (PrefMap.get [("42", "corrupted")] "42" =
        some (BackgroundManager.get_mode
          ⟨"user_prefs.json", [("42", "corrupted")]⟩ "42") ∨
      BackgroundManager.get_mode
          ⟨"user_prefs.json", [("42", "corrupted")]⟩ "42" = DEFAULT_MODE) :=
  get_mode_total_pure ⟨"user_prefs.json", [("42", "corrupted")]⟩ [] "42"

/-- C10: on every state, corrupted stored values included, `toggle` never
raises; it returns `"real-time"` exactly when the current mode is
`"background"` and `"background"` otherwise, and the returned (valid,
lowercase) value is stored for the user. -/
theorem toggle_total_and_stores (bm : BackgroundManager) (fs : FS)
    (u : String) :
    ∃ r bm' fs',
      bm.toggle fs u = Except.ok (r, bm', fs') ∧
      (r = "real-time" ↔ bm.get_mode u = "background") ∧
      (bm.get_mode u ≠ "background" → r = "background") ∧
      PrefMap.get bm'._prefs u = some r ∧
      (r = "real-time" ∨ r = "background") := by
  refine ⟨_, _, _, toggle_eq bm fs u, ?_, ?_, PrefMap.get_insert_self _ _ _, ?_⟩
  · by_cases h : bm.get_mode u = "background" <;> simp [h]
  · intro h; simp [h]
  · by_cases h : bm.get_mode u = "background" <;> simp [h]

/-- Witness for C10 on a store holding a corrupted value for the user. -/
theorem toggle_total_and_stores_witness :
    ∃ r bm' fs',
      BackgroundManager.toggle
          ⟨"user_prefs.json", [("42", "corrupted")]⟩ [] "42" =
        Except.ok (r, bm', fs') ∧
      (r = "real-time" ↔
        BackgroundManager.get_mode
          ⟨"user_prefs.json", [("42", "corrupted")]⟩ "42" = "background") ∧
      (BackgroundManager.get_mode
          ⟨"user_prefs.json", [("42", "corrupted")]⟩ "42" ≠ "background" →
        r = "background") ∧
      PrefMap.get bm'._prefs "42" = some r ∧
      (r = "real-time" ∨ r = "background") :=
  toggle_total_and_stores ⟨"user_prefs.json", [("42", "corrupted")]⟩ [] "42"

end BackgroundFix
